import Mathlib

/-!
Verification of the speech-fixer core: the transcript reconciler
(`handleReplace` in `src/app/page.tsx`) and the audio segment splicer
(`spliceAudio` and its helpers in `src/lib/audio-processor.ts`).

Times are JavaScript numbers in the source; they are modelled here as exact
rationals (`ℚ`), so the algebraic claims are settled over exact arithmetic.
String lengths use `String.length` (the concrete inputs are ASCII, where this
agrees with the JavaScript `.length`).
-/

namespace SpeechFixer

/-- Token kind of a transcription word, from `TranscriptionWord.type` in
`src/lib/types.ts`: `"word" | "punctuation" | "spacing"`. -/
inductive TokenType where
  | word
  | punctuation
  | spacing
deriving DecidableEq, Repr

/-- Model of `TranscriptionWord` from `src/lib/types.ts`. -/
structure TranscriptionWord where
  text : String
  start : ℚ
  «end» : ℚ
  type : TokenType
deriving DecidableEq, Repr

/-- Model of `TranscriptionResult` from `src/lib/types.ts`. -/
structure TranscriptionResult where
  text : String
  words : List TranscriptionWord
deriving DecidableEq, Repr

/-- Model of `WordSelection` from `src/lib/types.ts`. -/
structure WordSelection where
  startIndex : Nat
  endIndex : Nat
  startTime : ℚ
  endTime : ℚ
  selectedText : String
deriving DecidableEq, Repr

/-- Shift of a single token by `timeOffset`, as in `page.tsx` lines 339-343:
`{ ...newWords[i], start: newWords[i].start + timeOffset, end: newWords[i].end + timeOffset }`. -/
def shiftWord (off : ℚ) (w : TranscriptionWord) : TranscriptionWord :=
  { w with start := w.start + off, «end» := w.«end» + off }

/-- Model of the loop `for (let i = selection.startIndex + 1; i < newWords.length; i++)`
in `page.tsx` lines 338-344: every element at an index strictly greater than `s`
is shifted by `off`; elements at indices `≤ s` are left unchanged. -/
def shiftAfter (s : Nat) (off : ℚ) (ws : List TranscriptionWord) : List TranscriptionWord :=
  ws.take (s + 1) ++ (ws.drop (s + 1)).map (shiftWord off)

/-- Model of the transcript reconciliation in `handleReplace`
(`src/app/page.tsx` lines 318-350):

* `originalDuration = selection.endTime - selection.startTime`;
* `estimatedDuration = originalDuration * (newText.length / selection.selectedText.length)`;
* `timeOffset = estimatedDuration - originalDuration`;
* the new token `{ text: newText, start: selection.startTime, end: selection.startTime + estimatedDuration, type: "word" }`;
* `newWords.splice(selection.startIndex, selection.endIndex - selection.startIndex + 1, newWord)`,
  modelled as `take startIndex ++ [newWord] ++ drop (endIndex + 1)` (identical to
  the clamping semantics of `Array.prototype.splice` for `startIndex ≤ endIndex`);
* the shift loop over indices `> startIndex` of the spliced array;
* `text: newWords.map((w) => w.text).join("")`. -/
def reconcile (transcription : TranscriptionResult) (selection : WordSelection)
    (newText : String) : TranscriptionResult :=
  let originalDuration := selection.endTime - selection.startTime
  let estimatedDuration :=
    originalDuration * ((newText.length : ℚ) / (selection.selectedText.length : ℚ))
  let timeOffset := estimatedDuration - originalDuration
  let newWord : TranscriptionWord :=
    { text := newText
      start := selection.startTime
      «end» := selection.startTime + estimatedDuration
      type := TokenType.word }
  let spliced :=
    transcription.words.take selection.startIndex ++ [newWord] ++
      transcription.words.drop (selection.endIndex + 1)
  let shifted := shiftAfter selection.startIndex timeOffset spliced
  { transcription with
      words := shifted
      text := String.join (shifted.map (fun w => w.text)) }

theorem shiftAfter_length (s : Nat) (off : ℚ) (ws : List TranscriptionWord) :
    (shiftAfter s off ws).length = ws.length := by
  simp [shiftAfter]
  omega

theorem shiftAfter_getElem?_le (s : Nat) (off : ℚ) (ws : List TranscriptionWord)
    (i : Nat) (h : i ≤ s) : (shiftAfter s off ws)[i]? = ws[i]? := by
  by_cases hi : i < ws.length
  · have hlen : i < (ws.take (s + 1)).length := by
      simp [List.length_take]
      omega
    rw [shiftAfter, List.getElem?_append_left hlen, List.getElem?_take_of_lt (by omega)]
  · have hw : ws.length ≤ i := by omega
    have hsa : (shiftAfter s off ws).length ≤ i := by
      rw [shiftAfter_length]
      exact hw
    rw [List.getElem?_eq_none hsa, List.getElem?_eq_none hw]

theorem shiftAfter_getElem?_gt (s : Nat) (off : ℚ) (ws : List TranscriptionWord)
    (i : Nat) (h : s < i) :
    (shiftAfter s off ws)[i]? = (ws[i]?).map (shiftWord off) := by
  by_cases hi : i < ws.length
  · have htl : (ws.take (s + 1)).length = s + 1 := by
      rw [List.length_take]
      omega
    have hlen : (ws.take (s + 1)).length ≤ i := by omega
    rw [shiftAfter, List.getElem?_append_right hlen, List.getElem?_map, List.getElem?_drop, htl]
    have hidx : s + 1 + (i - (s + 1)) = i := by omega
    rw [hidx]
  · have hw : ws.length ≤ i := by omega
    have hsa : (shiftAfter s off ws).length ≤ i := by
      rw [shiftAfter_length]
      exact hw
    rw [List.getElem?_eq_none hsa, List.getElem?_eq_none hw]
    rfl

theorem splice_getElem?_self {α : Type} (ws rest : List α) (s : Nat) (a : α)
    (hs : s ≤ ws.length) : (ws.take s ++ [a] ++ rest)[s]? = some a := by
  have htl : (ws.take s).length = s := by
    rw [List.length_take]
    omega
  have h1 : s < (ws.take s ++ [a]).length := by
    rw [List.length_append, htl]
    simp
  rw [List.getElem?_append_left h1, List.getElem?_append_right (le_of_eq htl), htl,
    Nat.sub_self]
  rfl

theorem splice_getElem?_after {α : Type} (ws rest : List α) (s : Nat) (a : α) (i : Nat)
    (hs : s ≤ ws.length) (hi : s < i) :
    (ws.take s ++ [a] ++ rest)[i]? = rest[i - (s + 1)]? := by
  have htl : (ws.take s ++ [a]).length = s + 1 := by
    rw [List.length_append, List.length_take]
    simp
    omega
  have hlen : (ws.take s ++ [a]).length ≤ i := by
    rw [htl]
    omega
  rw [List.getElem?_append_right hlen, htl]

/-- Transcript used by the round-trip and asymmetric-length scenarios of the spec:
`[{"Hello",0,0.5,word}, {" ",0.5,0.5,spacing}, {"world",0.5,1.0,word}]`. -/
def sampleTranscript : TranscriptionResult :=
  { text := "Hello world"
    words := [
      { text := "Hello", start := 0, «end» := 1/2, type := TokenType.word },
      { text := " ", start := 1/2, «end» := 1/2, type := TokenType.spacing },
      { text := "world", start := 1/2, «end» := 1, type := TokenType.word }] }

/-- Selection of index range `[2,2]` ("world", span 0.5 - 1.0) in `sampleTranscript`. -/
def sampleSelection : WordSelection :=
  { startIndex := 2, endIndex := 2, startTime := 1/2, endTime := 1, selectedText := "world" }

/-- Extension of `sampleTranscript` with tokens after the selection, to exercise
the time-shift loop. -/
def sampleTranscript5 : TranscriptionResult :=
  { text := "Hello world is big"
    words := [
      { text := "Hello", start := 0, «end» := 1/2, type := TokenType.word },
      { text := " ", start := 1/2, «end» := 1/2, type := TokenType.spacing },
      { text := "world", start := 1/2, «end» := 1, type := TokenType.word },
      { text := " ", start := 1, «end» := 1, type := TokenType.spacing },
      { text := "is", start := 1, «end» := 3/2, type := TokenType.word }] }

/-- C1: for every reconciliation of a transcript with a valid selection
(word-bounded `startTime`/`endTime`, non-empty `selectedText`) and replacement
text `newText`, the selected index range is collapsed into exactly one new
token `{ text := newText, start := selection.startTime,
end := selection.startTime + estimatedDuration, kind := word }` sitting at
index `selection.startIndex` of the new token list, where
`estimatedDuration = (selection.endTime - selection.startTime) * (len newText / len selectedText)`. -/
theorem reconcile_inserted_token (t : TranscriptionResult) (sel : WordSelection)
    (newText : String) (hs : sel.startIndex ≤ sel.endIndex)
    (he : sel.endIndex < t.words.length) (_hne : sel.selectedText.length ≠ 0) :
    (reconcile t sel newText).words[sel.startIndex]? =
      some { text := newText
             start := sel.startTime
             «end» := sel.startTime + (sel.endTime - sel.startTime) *
               ((newText.length : ℚ) / (sel.selectedText.length : ℚ))
             type := TokenType.word } := by
  simp only [reconcile]
  rw [shiftAfter_getElem?_le _ _ _ _ (Nat.le_refl _)]
  exact splice_getElem?_self _ _ _ _ (by omega)

/-- C1 witness: the asymmetric-length scenario. Replacing "world"
(5 characters, span 0.5 - 1.0) with "everyone" (8 characters) yields
`estimatedDuration = 0.5 * 8/5 = 0.8` and the new token
`{ "everyone", 0.5, 1.3, word }` at index 2. -/
theorem reconcile_inserted_token_witness :
    sampleSelection.startIndex ≤ sampleSelection.endIndex ∧
    sampleSelection.endIndex < sampleTranscript.words.length ∧
    sampleSelection.selectedText.length ≠ 0 ∧
    (reconcile sampleTranscript sampleSelection "everyone").words[sampleSelection.startIndex]? =
      some { text := "everyone", start := 1/2, «end» := 13/10, type := TokenType.word } := by
  refine ⟨by decide, by decide, by decide, ?_⟩
  have h := reconcile_inserted_token sampleTranscript sampleSelection "everyone"
    (by decide) (by decide) (by decide)
  rw [h]
  have h8 : ("everyone".length : ℚ) = 8 := by
    have hn : "everyone".length = 8 := rfl
    rw [hn]
    norm_num
  have h5 : (sampleSelection.selectedText.length : ℚ) = 5 := by
    have hn : sampleSelection.selectedText.length = 5 := rfl
    rw [hn]
    norm_num
  have hst : sampleSelection.startTime = 1/2 := rfl
  have het : sampleSelection.endTime = 1 := rfl
  rw [h8, h5, hst, het]
  norm_num

/-- C3: for every valid index pair with
`startIndex ≤ endIndex < len tokens`, the reconciled transcript has token
count `len oldTranscript.tokens - (endIndex - startIndex + 1) + 1`. -/
theorem reconcile_token_count (t : TranscriptionResult) (sel : WordSelection)
    (newText : String) (hs : sel.startIndex ≤ sel.endIndex)
    (he : sel.endIndex < t.words.length) :
    (reconcile t sel newText).words.length =
      t.words.length - (sel.endIndex - sel.startIndex + 1) + 1 := by
  simp only [reconcile]
  rw [shiftAfter_length, List.length_append, List.length_append, List.length_take,
    List.length_drop]
  simp
  omega

/-- C3 witness: replacing the single token at index 2 of the three-token
sample transcript yields `3 - 1 + 1 = 3` tokens. -/
theorem reconcile_token_count_witness :
    sampleSelection.startIndex ≤ sampleSelection.endIndex ∧
    sampleSelection.endIndex < sampleTranscript.words.length ∧
    (reconcile sampleTranscript sampleSelection "everyone").words.length = 3 := by
  refine ⟨by decide, by decide, ?_⟩
  have h := reconcile_token_count sampleTranscript sampleSelection "everyone"
    (by decide) (by decide)
  rw [h]
  rfl

/-- C2: after every reconciliation, each token at an index strictly greater
than the index of the inserted token equals the corresponding input token (the one
at index `i + (endIndex - startIndex)` of the old list) with both `start` and
`end` shifted by the one constant
`timeOffset = estimatedDuration - originalSpanDuration`; relative ordering and
gaps are therefore preserved. -/
theorem reconcile_time_shift (t : TranscriptionResult) (sel : WordSelection)
    (newText : String) (i : Nat) (hs : sel.startIndex ≤ sel.endIndex)
    (he : sel.endIndex < t.words.length) (hi : sel.startIndex < i) :
    (reconcile t sel newText).words[i]? =
      (t.words[i + (sel.endIndex - sel.startIndex)]?).map
        (shiftWord ((sel.endTime - sel.startTime) *
            ((newText.length : ℚ) / (sel.selectedText.length : ℚ)) -
          (sel.endTime - sel.startTime))) := by
  simp only [reconcile]
  rw [shiftAfter_getElem?_gt _ _ _ _ hi]
  congr 1
  rw [splice_getElem?_after _ _ _ _ _ (by omega) hi, List.getElem?_drop]
  have hidx : sel.endIndex + 1 + (i - (sel.startIndex + 1)) =
      i + (sel.endIndex - sel.startIndex) := by omega
  rw [hidx]

/-- C2 witness: in the five-token sample, replacing "world" (index 2,
span 0.5 - 1.0) by "everyone" shifts the spacing token that was at old index 3
(`{" ", 1, 1}`) to `{" ", 1.3, 1.3}`: a constant offset of `+0.3` on both
`start` and `end`. -/
theorem reconcile_time_shift_witness :
    sampleSelection.startIndex ≤ sampleSelection.endIndex ∧
    sampleSelection.endIndex < sampleTranscript5.words.length ∧
    sampleSelection.startIndex < 3 ∧
    (reconcile sampleTranscript5 sampleSelection "everyone").words[3]? =
      some { text := " ", start := 13/10, «end» := 13/10, type := TokenType.spacing } := by
  refine ⟨by decide, by decide, by decide, ?_⟩
  have h := reconcile_time_shift sampleTranscript5 sampleSelection "everyone" 3
    (by decide) (by decide) (by decide)
  rw [h]
  have hl : sampleTranscript5.words[3 + (sampleSelection.endIndex - sampleSelection.startIndex)]? =
      some { text := " ", start := 1, «end» := 1, type := TokenType.spacing } := rfl
  have h8 : ("everyone".length : ℚ) = 8 := by
    have hn : "everyone".length = 8 := rfl
    rw [hn]
    norm_num
  have h5 : (sampleSelection.selectedText.length : ℚ) = 5 := by
    have hn : sampleSelection.selectedText.length = 5 := rfl
    rw [hn]
    norm_num
  have hst : sampleSelection.startTime = 1/2 := rfl
  have het : sampleSelection.endTime = 1 := rfl
  rw [hl, h8, h5, hst, het]
  simp [shiftWord]
  norm_num

/-- C8: the reconciler preserves the transcript text invariant: for every
edit, the `text` of the output transcript equals the concatenation of all its token
texts in order, exactly (the code recomputes `text` as
`newWords.map((w) => w.text).join("")`). -/
theorem reconcile_text_invariant (t : TranscriptionResult) (sel : WordSelection)
    (newText : String) :
    (reconcile t sel newText).text =
      String.join ((reconcile t sel newText).words.map (fun w => w.text)) := rfl

/-- Model of `SpliceParams` from `src/lib/audio-processor.ts`. -/
structure SpliceParams where
  originalAudioPath : String
  replacementAudioPath : String
  startTime : ℚ
  endTime : ℚ
  outputPath : String
deriving DecidableEq, Repr

/-- Record of one fluent-ffmpeg invocation, holding exactly the builder calls
made by `audio-processor.ts`. `audioCodec = none` models a job with no output
codec set (a stream-copy job); every job built by the source passes a codec. -/
structure FfmpegCommand where
  inputs : List String
  inputOptions : List String
  seekStart : Option ℚ
  clipDuration : Option ℚ
  audioCodec : Option String
  audioFrequency : Option Nat
  audioBitrate : Option String
  audioChannels : Option Nat
  output : String
deriving DecidableEq, Repr

/-- Model of `extractSegment` (`audio-processor.ts` lines 73-92):
`ffmpeg(inputPath).setStartTime(startTime).setDuration(endTime - startTime)`
re-encoded with `libmp3lame`, 44100 Hz, 128k, 2 channels. -/
def extractSegmentCmd (inputPath : String) (startTime endTime : ℚ)
    (outputPath : String) : FfmpegCommand :=
  { inputs := [inputPath]
    inputOptions := []
    seekStart := some startTime
    clipDuration := some (endTime - startTime)
    audioCodec := some "libmp3lame"
    audioFrequency := some 44100
    audioBitrate := some "128k"
    audioChannels := some 2
    output := outputPath }

/-- Model of `normalizeAudio` (`audio-processor.ts` lines 94-106): a full
re-encode of the input with `libmp3lame`, 44100 Hz, 128k, 2 channels. -/
def normalizeAudioCmd (inputPath outputPath : String) : FfmpegCommand :=
  { inputs := [inputPath]
    inputOptions := []
    seekStart := none
    clipDuration := none
    audioCodec := some "libmp3lame"
    audioFrequency := some 44100
    audioBitrate := some "128k"
    audioChannels := some 2
    output := outputPath }

/-- Model of `concatenateAudio` (`audio-processor.ts` lines 108-122): the list
file is read through the concat demuxer (`inputOptions ["-f","concat","-safe","0"]`),
and the output is re-encoded with `libmp3lame`, 44100 Hz, 128k, 2 channels
(the builder sets an output codec; it does not stream-copy). -/
def concatenateAudioCmd (listPath outputPath : String) : FfmpegCommand :=
  { inputs := [listPath]
    inputOptions := ["-f", "concat", "-safe", "0"]
    seekStart := none
    clipDuration := none
    audioCodec := some "libmp3lame"
    audioFrequency := some 44100
    audioBitrate := some "128k"
    audioChannels := some 2
    output := outputPath }

/-- Probe data for one audio file. `formatDuration` models
`metadata.format.duration` as reported by `ffprobe` — a container/format-level
header field that may be absent and may differ from the truth.
`decodedDuration` models the exact decode-level duration of the audio stream;
the source never consults it. -/
structure AudioFileInfo where
  formatDuration : Option ℚ
  decodedDuration : ℚ
deriving DecidableEq, Repr

/-- Model of `getAudioDuration` (`audio-processor.ts` lines 124-134): on a
probe error the promise rejects with that error; on success it resolves
`metadata.format.duration || 0` (`0` when the field is absent). -/
def getAudioDuration (probe : Except String AudioFileInfo) : Except String ℚ :=
  match probe with
  | Except.error e => Except.error e
  | Except.ok m => Except.ok (m.formatDuration.getD 0)

/-- Environment outcomes of the external steps of one `spliceAudio` call: the
`ffprobe` result for the original file, and the resolution of each ffmpeg job
that may be launched (`Except.ok ()` means the process wrote its output file
and resolved; `Except.error e` means it rejected with message `e`). -/
structure SpliceEnv where
  probe : Except String AudioFileInfo
  extractBeforeResult : Except String Unit
  extractAfterResult : Except String Unit
  normalizeResult : Except String Unit
  concatResult : Except String Unit

/-- Resolution of `Promise.all`: the first rejection among the launched jobs,
if any. -/
def firstError : List (Except String Unit) → Option String
  | [] => none
  | Except.error e :: _ => some e
  | Except.ok _ :: rest => firstError rest

/-- Truth of whether a launched job resolved (and therefore wrote its output
file). -/
def stepOk : Except String Unit → Bool
  | Except.ok _ => true
  | Except.error _ => false

/-- Line written for one segment in the concat list file:
`file <quote><path><quote>` with single-quote characters around the path
(`audio-processor.ts` lines 52-59). -/
def concatListLine (p : String) : String := "file \x27" ++ p ++ "\x27"

/-- Observable outcome of one `spliceAudio` call: the returned/rejected value,
the ffmpeg jobs that were launched, the concat list that was written, the
files written, and whether the `finally` cleanup (`fs.rm(tempDir, ...)`) ran. -/
structure SpliceOutcome where
  result : Except String String
  beforeJob : Option FfmpegCommand
  afterJob : Option FfmpegCommand
  normalizeJob : Option FfmpegCommand
  concatSources : Option (List String)
  listLines : Option (List String)
  concatJob : Option FfmpegCommand
  writes : List String
  cleanupRan : Bool

/-- Model of `spliceAudio` (`audio-processor.ts` lines 21-71). The temp
directory name produced by `fs.mkdtemp` is a parameter; the body

1. probes the original duration (propagating a probe rejection),
2. launches the before-extraction only when `startTime > 0`, the
   after-extraction only when `endTime < duration`, and the replacement
   normalization always, awaiting all three (`Promise.all` rejects with the
   first failing job; jobs that resolved have written their outputs),
3. writes the concat list `[before?, replacement, after?]`,
4. runs the concat job and resolves with `outputPath`,

and in every branch the `finally` block runs the temp-dir removal (whose own
failure the source swallows with `.catch(() => {})`). -/
def spliceAudio (p : SpliceParams) (tempDir : String) (env : SpliceEnv) : SpliceOutcome :=
  let beforePath := tempDir ++ "/before.mp3"
  let afterPath := tempDir ++ "/after.mp3"
  let normalizedReplacementPath := tempDir ++ "/replacement_normalized.mp3"
  let listPath := tempDir ++ "/list.txt"
  match getAudioDuration env.probe with
  | Except.error e =>
      { result := Except.error e
        beforeJob := none, afterJob := none, normalizeJob := none
        concatSources := none, listLines := none, concatJob := none
        writes := [], cleanupRan := true }
  | Except.ok duration =>
      let beforeJob :=
        if 0 < p.startTime then
          some (extractSegmentCmd p.originalAudioPath 0 p.startTime beforePath)
        else none
      let afterJob :=
        if p.endTime < duration then
          some (extractSegmentCmd p.originalAudioPath p.endTime duration afterPath)
        else none
      let normalizeJob := normalizeAudioCmd p.replacementAudioPath normalizedReplacementPath
      let jobResults :=
        (if 0 < p.startTime then [env.extractBeforeResult] else []) ++
          (if p.endTime < duration then [env.extractAfterResult] else []) ++
          [env.normalizeResult]
      let jobWrites :=
        (if 0 < p.startTime ∧ stepOk env.extractBeforeResult then [beforePath] else []) ++
          (if p.endTime < duration ∧ stepOk env.extractAfterResult then [afterPath] else []) ++
          (if stepOk env.normalizeResult then [normalizedReplacementPath] else [])
      match firstError jobResults with
      | some e =>
          { result := Except.error e
            beforeJob := beforeJob, afterJob := afterJob, normalizeJob := some normalizeJob
            concatSources := none, listLines := none, concatJob := none
            writes := jobWrites, cleanupRan := true }
      | none =>
          let files :=
            (if 0 < p.startTime then [beforePath] else []) ++
              [normalizedReplacementPath] ++
              (if p.endTime < duration then [afterPath] else [])
          let listLines := files.map concatListLine
          let concatJob := concatenateAudioCmd listPath p.outputPath
          match env.concatResult with
          | Except.error e =>
              { result := Except.error e
                beforeJob := beforeJob, afterJob := afterJob
                normalizeJob := some normalizeJob
                concatSources := some files, listLines := some listLines
                concatJob := some concatJob
                writes := jobWrites ++ [listPath], cleanupRan := true }
          | Except.ok _ =>
              { result := Except.ok p.outputPath
                beforeJob := beforeJob, afterJob := afterJob
                normalizeJob := some normalizeJob
                concatSources := some files, listLines := some listLines
                concatJob := some concatJob
                writes := jobWrites ++ [listPath, p.outputPath], cleanupRan := true }

/-- Decoded-content semantics of the concat demuxer: the output stream is the
join of the contents of the input files in list order. -/
def concatContent (content : String → List ℤ) (sources : List String) : List ℤ :=
  (sources.map content).flatten

/-- C6 counterexample data: a file whose container metadata reports 2 s while
the decoded stream lasts 2.1 s. -/
def mismatchedInfo : AudioFileInfo := { formatDuration := some 2, decodedDuration := 21/10 }

/-- C6 counterexample: `getAudioDuration` returns the container-metadata value
(2), not the decode-level duration (2.1), so the probe is not decode-exact. -/
theorem getAudioDuration_container_counterexample :
    getAudioDuration (Except.ok mismatchedInfo) ≠
      Except.ok mismatchedInfo.decodedDuration ∧
    getAudioDuration (Except.ok mismatchedInfo) = Except.ok 2 := by
  constructor
  · intro h
    simp only [getAudioDuration, mismatchedInfo, Option.getD] at h
    rw [Except.ok.injEq] at h
    norm_num at h
  · rfl

/-- C6 amended: `getAudioDuration` resolves exactly the ffprobe format-level
(container) metadata duration, defaulting to 0 when the field is absent; it is
fully determined by that metadata field and never consults the decode-level
duration of the stream. -/
theorem getAudioDuration_returns_format_metadata (info : AudioFileInfo) (d : ℚ) :
    getAudioDuration (Except.ok info) = Except.ok (info.formatDuration.getD 0) ∧
    getAudioDuration (Except.ok { info with decodedDuration := d }) =
      getAudioDuration (Except.ok info) :=
  ⟨rfl, rfl⟩

/-- C10: when the probe succeeds but reports no duration value,
`getAudioDuration` resolves 0 (the `metadata.format.duration || 0` fallback)
instead of rejecting, and `spliceAudio` proceeds with `originalDuration = 0`,
so for any non-negative `endTime` the after segment is always skipped; no
probe-failure error surfaces. -/
theorem getAudioDuration_missing_duration_fallback (d : ℚ) (p : SpliceParams)
    (tempDir : String) (env : SpliceEnv)
    (hprobe : env.probe = Except.ok { formatDuration := none, decodedDuration := d })
    (hend : 0 ≤ p.endTime) :
    getAudioDuration env.probe = Except.ok 0 ∧
    (spliceAudio p tempDir env).afterJob = none := by
  constructor
  · rw [hprobe]
    rfl
  · simp only [spliceAudio, hprobe, getAudioDuration, Option.getD_none]
    have hlt : ¬ p.endTime < 0 := not_lt.mpr hend
    split
    · simp [hlt]
    · split <;> simp [hlt]

/-- Splice parameters with an interior cut window (1 s - 2 s). -/
def sampleParams : SpliceParams :=
  { originalAudioPath := "original.mp3"
    replacementAudioPath := "replacement.mp3"
    startTime := 1
    endTime := 2
    outputPath := "out.mp3" }

/-- Probe data for a 3-second file whose metadata agrees with its stream. -/
def threeSecondInfo : AudioFileInfo := { formatDuration := some 3, decodedDuration := 3 }

/-- Environment in which every external step succeeds against `threeSecondInfo`. -/
def sampleEnv : SpliceEnv :=
  { probe := Except.ok threeSecondInfo
    extractBeforeResult := Except.ok ()
    extractAfterResult := Except.ok ()
    normalizeResult := Except.ok ()
    concatResult := Except.ok () }

/-- Splice parameters covering the whole probed file: `startTime = 0`,
`endTime = 3 = originalDuration`. -/
def identityParams : SpliceParams :=
  { originalAudioPath := "original.mp3"
    replacementAudioPath := "replacement.mp3"
    startTime := 0
    endTime := 3
    outputPath := "out.mp3" }

/-- C4: for every splice with `startTime = 0` and `endTime` equal to the probed
`originalDuration`, no before segment and no after segment is extracted, the
concat list contains only the normalized replacement, and the output is the
concatenation of that single segment — the normalized replacement alone. -/
theorem spliceAudio_identity (p : SpliceParams) (tempDir : String) (env : SpliceEnv)
    (info : AudioFileInfo) (content : String → List ℤ)
    (hprobe : env.probe = Except.ok info) (hstart : p.startTime = 0)
    (hend : p.endTime = info.formatDuration.getD 0)
    (hn : env.normalizeResult = Except.ok ()) (hc : env.concatResult = Except.ok ()) :
    (spliceAudio p tempDir env).beforeJob = none ∧
    (spliceAudio p tempDir env).afterJob = none ∧
    (spliceAudio p tempDir env).concatSources =
      some [tempDir ++ "/replacement_normalized.mp3"] ∧
    (spliceAudio p tempDir env).result = Except.ok p.outputPath ∧
    concatContent content ((spliceAudio p tempDir env).concatSources.getD []) =
      content (tempDir ++ "/replacement_normalized.mp3") := by
  have h1 : ¬ 0 < p.startTime := by
    rw [hstart]
    exact lt_irrefl 0
  have h2 : ¬ p.endTime < info.formatDuration.getD 0 := by
    rw [hend]
    exact lt_irrefl _
  simp only [spliceAudio, hprobe, getAudioDuration]
  simp [h1, h2, hn, hc, firstError, concatContent]

/-- C4 witness: splicing `[0, 3]` out of the 3-second file runs neither
before- nor after-extraction and concatenates the normalized replacement
alone. -/
theorem spliceAudio_identity_witness :
    sampleEnv.probe = Except.ok threeSecondInfo ∧
    identityParams.startTime = 0 ∧
    identityParams.endTime = threeSecondInfo.formatDuration.getD 0 ∧
    (spliceAudio identityParams "/tmp/splice-abc" sampleEnv).beforeJob = none ∧
    (spliceAudio identityParams "/tmp/splice-abc" sampleEnv).afterJob = none ∧
    (spliceAudio identityParams "/tmp/splice-abc" sampleEnv).concatSources =
      some ["/tmp/splice-abc" ++ "/replacement_normalized.mp3"] ∧
    (spliceAudio identityParams "/tmp/splice-abc" sampleEnv).result = Except.ok "out.mp3" := by
  have h := spliceAudio_identity identityParams "/tmp/splice-abc" sampleEnv threeSecondInfo
    (fun _ => []) rfl rfl rfl rfl rfl
  exact ⟨rfl, rfl, rfl, h.1, h.2.1, h.2.2.1, h.2.2.2.1⟩

/-- C5 counterexample: in a concrete successful splice the concat job is the
concat-demuxer invocation, but that invocation sets `audioCodec libmp3lame`
(together with 44100 Hz / 128k / 2 channels), i.e. it re-encodes its output at
concat time rather than stream-copying; the claimed "without applying a second
lossy re-encode at concat time" is false of the code. -/
theorem concat_reencode_counterexample :
    (spliceAudio sampleParams "/tmp/splice-abc" sampleEnv).concatJob =
      some (concatenateAudioCmd ("/tmp/splice-abc" ++ "/list.txt") "out.mp3") ∧
    ¬ (concatenateAudioCmd ("/tmp/splice-abc" ++ "/list.txt") "out.mp3").audioCodec = none := by
  constructor
  · rfl
  · simp [concatenateAudioCmd]

/-- C5 amended: the final concatenation joins the segments in order
`[before?, replacement, after?]` through the concat demuxer
(`-f concat -safe 0` on the list file), but the concat invocation re-encodes
its output with `libmp3lame` at 44100 Hz / 128k / stereo — a second lossy
encode — instead of stream-copying the already-normalized segments. -/
theorem spliceAudio_concat_demuxer_reencode (p : SpliceParams) (tempDir : String)
    (env : SpliceEnv) (info : AudioFileInfo) (hprobe : env.probe = Except.ok info)
    (hb : env.extractBeforeResult = Except.ok ())
    (ha : env.extractAfterResult = Except.ok ())
    (hn : env.normalizeResult = Except.ok ()) :
    (spliceAudio p tempDir env).concatSources =
      some ((if 0 < p.startTime then [tempDir ++ "/before.mp3"] else []) ++
        [tempDir ++ "/replacement_normalized.mp3"] ++
        (if p.endTime < info.formatDuration.getD 0 then [tempDir ++ "/after.mp3"] else [])) ∧
    (spliceAudio p tempDir env).concatJob =
      some (concatenateAudioCmd (tempDir ++ "/list.txt") p.outputPath) ∧
    (concatenateAudioCmd (tempDir ++ "/list.txt") p.outputPath).inputOptions =
      ["-f", "concat", "-safe", "0"] ∧
    (concatenateAudioCmd (tempDir ++ "/list.txt") p.outputPath).audioCodec =
      some "libmp3lame" := by
  simp only [spliceAudio, hprobe, getAudioDuration]
  by_cases h1 : 0 < p.startTime <;>
    by_cases h2 : p.endTime < info.formatDuration.getD 0 <;>
    cases hc2 : env.concatResult <;>
    simp [h1, h2, hb, ha, hn, hc2, firstError, concatenateAudioCmd]

/-- C5 amended witness: the interior splice of `sampleParams` produces the
three-segment list in order and the re-encoding concat-demuxer job. -/
theorem spliceAudio_concat_demuxer_reencode_witness :
    sampleEnv.probe = Except.ok threeSecondInfo ∧
    (spliceAudio sampleParams "/tmp/splice-abc" sampleEnv).concatSources =
      some ["/tmp/splice-abc" ++ "/before.mp3",
        "/tmp/splice-abc" ++ "/replacement_normalized.mp3",
        "/tmp/splice-abc" ++ "/after.mp3"] ∧
    (spliceAudio sampleParams "/tmp/splice-abc" sampleEnv).concatJob =
      some (concatenateAudioCmd ("/tmp/splice-abc" ++ "/list.txt") "out.mp3") ∧
    (concatenateAudioCmd ("/tmp/splice-abc" ++ "/list.txt") "out.mp3").audioCodec =
      some "libmp3lame" := by
  have h := spliceAudio_concat_demuxer_reencode sampleParams "/tmp/splice-abc" sampleEnv
    threeSecondInfo rfl rfl rfl rfl
  refine ⟨rfl, ?_, h.2.1, h.2.2.2⟩
  rw [h.1]
  rfl

/-- Splice parameters with an inverted window: `startTime = 2 > endTime = 1`. -/
def badRangeParams : SpliceParams :=
  { originalAudioPath := "original.mp3"
    replacementAudioPath := "replacement.mp3"
    startTime := 2
    endTime := 1
    outputPath := "out.mp3" }

/-- Environment in which every external step succeeds against a 3-second
file. -/
def badRangeEnv : SpliceEnv :=
  { probe := Except.ok threeSecondInfo
    extractBeforeResult := Except.ok ()
    extractAfterResult := Except.ok ()
    normalizeResult := Except.ok ()
    concatResult := Except.ok () }

/-- C7 counterexample: a splice request with `startTime = 2 > endTime = 1` is
not rejected: `spliceAudio` probes, launches the normalization (media
processing begins) and resolves successfully; no `InvalidRange` error exists
anywhere on the path. -/
theorem no_invalid_range_counterexample :
    badRangeParams.endTime < badRangeParams.startTime ∧
    (spliceAudio badRangeParams "/tmp/splice-abc" badRangeEnv).result =
      Except.ok "out.mp3" ∧
    (spliceAudio badRangeParams "/tmp/splice-abc" badRangeEnv).normalizeJob.isSome =
      true := by
  refine ⟨?_, rfl, rfl⟩
  norm_num [badRangeParams]

/-- C7 amended: neither `spliceAudio` nor its callers validate the time window
or the reconciliation indices: for every parameter record — including
`startTime > endTime` — a successful probe and successful ffmpeg jobs make
`spliceAudio` resolve with the output path; the only request validation
upstream is presence of the two audio inputs and non-NaN times, and the
reconciler applies out-of-bounds indices without rejection. -/
theorem spliceAudio_no_range_validation (p : SpliceParams) (tempDir : String)
    (env : SpliceEnv) (info : AudioFileInfo) (hprobe : env.probe = Except.ok info)
    (hb : env.extractBeforeResult = Except.ok ())
    (ha : env.extractAfterResult = Except.ok ())
    (hn : env.normalizeResult = Except.ok ())
    (hc : env.concatResult = Except.ok ()) :
    (spliceAudio p tempDir env).result = Except.ok p.outputPath := by
  simp only [spliceAudio, hprobe, getAudioDuration]
  by_cases h1 : 0 < p.startTime <;>
    by_cases h2 : p.endTime < info.formatDuration.getD 0 <;>
    simp [h1, h2, hb, ha, hn, hc, firstError]

/-- C7 amended witness: the inverted-window request resolves successfully. -/
theorem spliceAudio_no_range_validation_witness :
    badRangeEnv.probe = Except.ok threeSecondInfo ∧
    badRangeParams.endTime < badRangeParams.startTime ∧
    (spliceAudio badRangeParams "/tmp/splice-abc" badRangeEnv).result =
      Except.ok "out.mp3" := by
  refine ⟨rfl, ?_, ?_⟩
  · norm_num [badRangeParams]
  · exact spliceAudio_no_range_validation badRangeParams "/tmp/splice-abc" badRangeEnv
      threeSecondInfo rfl rfl rfl rfl rfl

/-- File paths a `spliceAudio` call may write: its four temp files and the
caller-supplied output destination. -/
def spliceTargets (p : SpliceParams) (tempDir : String) : List String :=
  [tempDir ++ "/before.mp3", tempDir ++ "/after.mp3",
    tempDir ++ "/replacement_normalized.mp3", tempDir ++ "/list.txt", p.outputPath]

theorem spliceAudio_cleanup_always (p : SpliceParams) (tempDir : String)
    (env : SpliceEnv) : (spliceAudio p tempDir env).cleanupRan = true := by
  simp only [spliceAudio]
  split
  · rfl
  · split
    · rfl
    · split <;> rfl

theorem spliceAudio_writes_subset (p : SpliceParams) (tempDir : String)
    (env : SpliceEnv) :
    ∀ f ∈ (spliceAudio p tempDir env).writes, f ∈ spliceTargets p tempDir := by
  intro f hf
  simp only [spliceAudio] at hf
  repeat' split at hf
  all_goals (try simp_all [spliceTargets])
  all_goals tauto

/-- C9: on every exit path of `spliceAudio` — success, probe failure, any
extraction/normalization failure, or concat failure — the `finally` cleanup of
the per-invocation temp directory runs, and every file written lies in that
temp directory or at the caller-supplied output path; in particular the
original audio file (when distinct from those targets) is never written, so a
failed edit leaves it unmodified. The reconciler returns a fresh transcript
value (`reconcile` is a pure function of its inputs), so the prior transcript
is likewise untouched. -/
theorem spliceAudio_failure_isolation (p : SpliceParams) (tempDir : String)
    (env : SpliceEnv) (h : p.originalAudioPath ∉ spliceTargets p tempDir) :
    (spliceAudio p tempDir env).cleanupRan = true ∧
    (∀ f ∈ (spliceAudio p tempDir env).writes, f ∈ spliceTargets p tempDir) ∧
    p.originalAudioPath ∉ (spliceAudio p tempDir env).writes :=
  ⟨spliceAudio_cleanup_always p tempDir env, spliceAudio_writes_subset p tempDir env,
    fun hmem => h (spliceAudio_writes_subset p tempDir env _ hmem)⟩

/-- Environment in which the before-extraction fails. -/
def failingEnv : SpliceEnv :=
  { probe := Except.ok threeSecondInfo
    extractBeforeResult := Except.error "boom"
    extractAfterResult := Except.ok ()
    normalizeResult := Except.ok ()
    concatResult := Except.ok () }

/-- C9 witness: under an injected before-extraction failure the call rejects
with that error, the cleanup still runs, and the original audio path is never
written. -/
theorem spliceAudio_failure_isolation_witness :
    sampleParams.originalAudioPath ∉ spliceTargets sampleParams "/tmp/splice-abc" ∧
    (spliceAudio sampleParams "/tmp/splice-abc" failingEnv).result =
      Except.error "boom" ∧
    (spliceAudio sampleParams "/tmp/splice-abc" failingEnv).cleanupRan = true ∧
    sampleParams.originalAudioPath ∉
      (spliceAudio sampleParams "/tmp/splice-abc" failingEnv).writes := by
  have h0 : sampleParams.originalAudioPath ∉ spliceTargets sampleParams "/tmp/splice-abc" := by
    decide
  have h := spliceAudio_failure_isolation sampleParams "/tmp/splice-abc" failingEnv h0
  exact ⟨h0, rfl, h.1, h.2.2⟩

/-- Environment whose probe succeeds but reports no duration value. -/
def noDurationEnv : SpliceEnv :=
  { probe := Except.ok { formatDuration := none, decodedDuration := 5 }
    extractBeforeResult := Except.ok ()
    extractAfterResult := Except.ok ()
    normalizeResult := Except.ok ()
    concatResult := Except.ok () }

/-- C10 witness: with a successful probe that carries no duration field, the
probe resolves 0 and the after segment is skipped for `endTime = 1 ≥ 0`. -/
theorem getAudioDuration_missing_duration_fallback_witness :
    noDurationEnv.probe = Except.ok { formatDuration := none, decodedDuration := 5 } ∧
    (0:ℚ) ≤ sampleParams.endTime ∧
    getAudioDuration noDurationEnv.probe = Except.ok 0 ∧
    (spliceAudio sampleParams "/tmp/splice-abc" noDurationEnv).afterJob = none := by
  have hend : (0:ℚ) ≤ sampleParams.endTime := by norm_num [sampleParams]
  have h := getAudioDuration_missing_duration_fallback 5 sampleParams "/tmp/splice-abc"
    noDurationEnv rfl hend
  exact ⟨rfl, hend, h.1, h.2⟩

end SpeechFixer
